import Mathlib

/-!
# Verification of the catalog/recommendation backend (`src/main.py`)

Shallow embedding of the data model and the recommendation logic of the
backend service: the `Solution` catalog, the `RecommendRequest` input, the
keyword-overlap `score`, and the `recommend` operation
(`sorted(CATALOG, key=score, reverse=True)[:3]`).

Modelling conventions:
* Python `str` values are Lean `String`s; substring tests (`kw in s`) are
  performed on the underlying `List Char` (a Python string is a sequence of
  code points, `in` is contiguous-subsequence containment).
* Python's `str.lower()` is modelled by mapping `Char.toLower` over the
  characters.  All uppercase characters occurring in the catalog are ASCII,
  where the two functions agree.
* Python's `set` of keywords is modelled by deduplicating the concatenated
  token lists; the per-keyword score increments are order independent, so any
  enumeration of the set yields the same sum.
* Python's `sorted` with `reverse=True` is a *stable* descending sort; it is
  modelled by sorting the index-annotated catalog (`List.enum`) by the total
  preorder "higher score first, original index first on ties", which
  determines the output uniquely.
-/

/-- The `Solution` record (pydantic model in `src/main.py`). -/
structure Solution where
  id : String
  title : String
  category : String
  description : String
  impact : String
  tools : List String
  complexity : String
  deriving DecidableEq

/-- The `RecommendRequest` record: `industry` and `team_size` optional,
`goals` and `processes` required lists. -/
structure RecommendRequest where
  industry : Option String
  team_size : Option String
  goals : List String
  processes : List String
  deriving DecidableEq

/-- Catalog entry 0. -/
def leadCaptureCrm : Solution :=
  { id := "lead-capture-crm"
    title := "Acquisizione lead → CRM"
    category := "Vendite"
    description := "Raccogli i lead da form e landing e inseriscili automaticamente nel CRM con deduplicazione e arricchimento dati."
    impact := "Riduce tempi manuali e migliora la qualità dei dati"
    tools := ["Webhooks", "Zapier/Make", "HubSpot/Pipedrive"]
    complexity := "Low" }

/-- Catalog entry 1. -/
def invoiceAutomation : Solution :=
  { id := "invoice-automation"
    title := "Fatturazione automatica"
    category := "Finance"
    description := "Genera fatture dai contratti/ordini, inviale e registra i pagamenti con riconciliazione."
    impact := "Riduce errori e velocizza il cash-flow"
    tools := ["ERP/Conta", "Stripe", "Zapier"]
    complexity := "Medium" }

/-- Catalog entry 2. -/
def marketingDrip : Solution :=
  { id := "marketing-drip"
    title := "Email drip marketing"
    category := "Marketing"
    description := "Sequenze email automatiche basate su comportamento utente e segmenti."
    impact := "Aumenta conversioni e LTV"
    tools := ["Mailchimp/Customer.io", "Segment", "Webhook"]
    complexity := "Low" }

/-- Catalog entry 3. -/
def supportTriage : Solution :=
  { id := "support-triage"
    title := "Smistamento ticket con AI"
    category := "Supporto"
    description := "Classifica automaticamente i ticket per priorità, lingua e argomento, assegnandoli al team giusto."
    impact := "Riduce i tempi di risposta"
    tools := ["Helpdesk", "AI classifier", "Webhook"]
    complexity := "Medium" }

/-- Catalog entry 4. -/
def opsDashboard : Solution :=
  { id := "ops-dashboard"
    title := "Dashboard operativa live"
    category := "Operazioni"
    description := "Unifica dati da CRM, supporto e fatturazione in un\x27unica dashboard con KPI aggiornati."
    impact := "Migliora visibilità e decisioni"
    tools := ["BigQuery", "Metabase/Looker", "ETL"]
    complexity := "High" }

/-- The static curated catalog `CATALOG` of `src/main.py`, in source order. -/
def CATALOG : List Solution :=
  [leadCaptureCrm, invoiceAutomation, marketingDrip, supportTriage, opsDashboard]

/-- Python `s.lower()` on the character sequence of a string. -/
def lowerD (s : String) : List Char :=
  s.data.map Char.toLower

/-- Python `a.startswith(b)` on character lists: `startsWithB n h` is true iff
`n` is a prefix of `h`. -/
def startsWithB : List Char → List Char → Bool
  | [], _ => true
  | _ :: _, [] => false
  | a :: n, b :: h => a == b && startsWithB n h

/-- Python's containment test `n in h` for strings, on character lists:
true iff `n` occurs as a contiguous substring of `h`. -/
def containsB (n : List Char) : List Char → Bool
  | [] => n.isEmpty
  | c :: t => startsWithB n (c :: t) || containsB n t

/-- `n` occurs as a contiguous substring of `h` (the specification of
Python's `in` on strings). -/
def ContainsSub (n h : List Char) : Prop :=
  ∃ pre post, h = pre ++ n ++ post

/-- Python `s.split()` on character lists: maximal runs of non-whitespace
characters, in order; whitespace is discarded and no empty token is
produced.  `splitWS` computes the runs right-to-left (a possibly empty
head marks a pending word); `pySplitD` drops the empty marker. -/
def splitWS : List Char → List (List Char)
  | [] => []
  | c :: rest =>
    if c.isWhitespace then
      match splitWS rest with
      | [] => []
      | [] :: ws => [] :: ws
      | w :: ws => [] :: w :: ws
    else
      match splitWS rest with
      | [] => [[c]]
      | w :: ws => (c :: w) :: ws

/-- Python `s.split()`: whitespace-separated tokens, no empties. -/
def pySplitD (cs : List Char) : List (List Char) :=
  (splitWS cs).filter (fun w => w ≠ [])

/-- The keyword set of `recommend`:
`keywords = set((req.industry or "").lower().split())`, then
`keywords.update(req.goals)` and `keywords.update(req.processes)`.
Modelled as the deduplicated concatenation (one occurrence per set
element). -/
def keywordsOf (req : RecommendRequest) : List (List Char) :=
  (pySplitD (lowerD (req.industry.getD ""))
      ++ req.goals.map String.data ++ req.processes.map String.data).dedup

/-- The haystack of `score`:
`s = sol.title.lower() + " " + sol.category.lower() + " " + sol.description.lower()`. -/
def haystackD (sol : Solution) : List Char :=
  lowerD sol.title ++ [' '] ++ lowerD sol.category ++ [' '] ++ lowerD sol.description

/-- The base-score loop of `score`:
`for kw in keywords: if kw and kw in s: base += 2`. -/
def baseScore (req : RecommendRequest) (sol : Solution) : Nat :=
  (keywordsOf req).foldl
    (fun base kw => if !kw.isEmpty && containsB kw (haystackD sol) then base + 2 else base) 0

/-- The full `score` function of `recommend`: the base keyword score plus the
`reduce_errors`/`save_time` heuristic bonuses and the Low-complexity
team-size bonus (`req.team_size in {"solo", "small", None}`). -/
def score (req : RecommendRequest) (sol : Solution) : Nat :=
  baseScore req sol
    + (if "reduce_errors" ∈ req.goals ∧ containsB "error".data (haystackD sol) = true then 2 else 0)
    + (if "save_time" ∈ req.goals ∧ containsB "tempo".data (haystackD sol) = true then 2 else 0)
    + (if sol.complexity = "Low" ∧
          (req.team_size = some "solo" ∨ req.team_size = some "small" ∨ req.team_size = none)
        then 1 else 0)

/-- The ordering used to model `sorted(cat, key=score, reverse=True)` on the
index-annotated catalog: strictly higher score first; on score ties, the
smaller original index first (Python's sort is stable). -/
def rankRel (req : RecommendRequest) (p q : Nat × Solution) : Prop :=
  score req q.2 < score req p.2 ∨ (score req p.2 = score req q.2 ∧ p.1 ≤ q.1)

instance rankRelDecidable (req : RecommendRequest) : DecidableRel (rankRel req) :=
  fun p q => by unfold rankRel; infer_instance

instance rankRelTotal (req : RecommendRequest) : IsTotal (Nat × Solution) (rankRel req) := by
  constructor
  intro p q
  rcases Nat.lt_trichotomy (score req p.2) (score req q.2) with h | h | h
  · exact Or.inr (Or.inl h)
  · rcases Nat.le_total p.1 q.1 with h' | h'
    · exact Or.inl (Or.inr ⟨h, h'⟩)
    · exact Or.inr (Or.inr ⟨h.symm, h'⟩)
  · exact Or.inl (Or.inl h)

instance rankRelTrans (req : RecommendRequest) : IsTrans (Nat × Solution) (rankRel req) := by
  constructor
  rintro p q u (h₁ | ⟨e₁, i₁⟩) (h₂ | ⟨e₂, i₂⟩)
  · exact Or.inl (h₂.trans h₁)
  · exact Or.inl (e₂ ▸ h₁)
  · exact Or.inl (e₁ ▸ h₂)
  · exact Or.inr ⟨e₁.trans e₂, i₁.trans i₂⟩

/-- `sorted(cat, key=score, reverse=True)` over an arbitrary catalog value,
keeping the original position of each entry. -/
def rankedOn (req : RecommendRequest) (cat : List Solution) : List (Nat × Solution) :=
  List.insertionSort (rankRel req) cat.enum

/-- `ranked = sorted(CATALOG, key=score, reverse=True)`, index-annotated. -/
def ranked (req : RecommendRequest) : List (Nat × Solution) :=
  rankedOn req CATALOG

/-- The `recommend` endpoint: `return ranked[:3]`. -/
def recommend (req : RecommendRequest) : List Solution :=
  ((ranked req).map Prod.snd).take 3

/-- The `list_solutions` endpoint as a state transformer over the catalog:
it returns the catalog and leaves it unchanged. -/
def list_solutions (st : List Solution) : List Solution × List Solution :=
  (st, st)

/-- `recommend` as a state transformer over the catalog: `sorted` builds a
new list, so the catalog state is returned unchanged. -/
def recommendOp (req : RecommendRequest) (st : List Solution) :
    List Solution × List Solution :=
  (((rankedOn req st).map Prod.snd).take 3, st)

/-- One observable API call against the catalog state. -/
inductive ApiCall where
  | listSolutionsCall : ApiCall
  | recommendCall : RecommendRequest → ApiCall

/-- Execute one call: the response paired with the catalog state after the
call. -/
def runCall (st : List Solution) : ApiCall → List Solution × List Solution
  | ApiCall.listSolutionsCall => list_solutions st
  | ApiCall.recommendCall req => recommendOp req st

/-- The catalog state after a sequence of calls. -/
def runCalls : List Solution → List ApiCall → List Solution
  | st, [] => st
  | st, c :: cs => runCalls (runCall st c).2 cs

/-- A sample request with unrecognized industry, team size, goal and
process values. -/
def reqNoBonus : RecommendRequest :=
  ⟨some "ecommerce", some "medium", ["reduce_errors", "save_time"], []⟩

/-- The keyword set as the specification describes it: the union of the
whitespace-split lowercased industry tokens with the goal and process
strings taken verbatim. -/
def specKeywordSet (req : RecommendRequest) : Finset (List Char) :=
  (pySplitD (lowerD (req.industry.getD ""))).toFinset
    ∪ (req.goals.map String.data).toFinset ∪ (req.processes.map String.data).toFinset

theorem startsWithB_iff : ∀ n h : List Char, startsWithB n h = true ↔ ∃ t, h = n ++ t
  | [], h => by simp [startsWithB]
  | a :: n, [] => by simp [startsWithB]
  | a :: n, b :: h => by
    simp only [startsWithB, Bool.and_eq_true, beq_iff_eq, startsWithB_iff n h]
    constructor
    · rintro ⟨rfl, t, rfl⟩
      exact ⟨t, rfl⟩
    · rintro ⟨t, ht⟩
      rw [List.cons_append] at ht
      injection ht with h₁ h₂
      exact ⟨h₁.symm, t, h₂⟩

theorem containsB_iff : ∀ n h : List Char, containsB n h = true ↔ ContainsSub n h
  | n, [] => by
    simp only [containsB, List.isEmpty_iff, ContainsSub]
    constructor
    · rintro rfl
      exact ⟨[], [], rfl⟩
    · rintro ⟨pre, post, hp⟩
      rcases List.append_eq_nil.mp (List.append_eq_nil.mp hp.symm).1 with ⟨-, h₂⟩
      exact h₂
  | n, c :: t => by
    simp only [containsB, Bool.or_eq_true, startsWithB_iff, containsB_iff n t]
    constructor
    · rintro (⟨post, hp⟩ | ⟨pre, post, hp⟩)
      · exact ⟨[], post, by simpa using hp⟩
      · exact ⟨c :: pre, post, by simp [hp]⟩
    · rintro ⟨pre, post, hp⟩
      cases pre with
      | nil => exact Or.inl ⟨post, by simpa using hp⟩
      | cons p pre =>
        rw [List.cons_append, List.cons_append] at hp
        injection hp with h₁ h₂
        exact Or.inr ⟨pre, post, h₂⟩

instance containsSubDecidable (n h : List Char) : Decidable (ContainsSub n h) :=
  decidable_of_iff (containsB n h = true) (containsB_iff n h)

/-- The per-keyword condition of the base-score loop, as a Boolean, agrees
with the claim's "non-empty substring of the haystack" condition. -/
theorem matchPred_iff (hay kw : List Char) :
    (!kw.isEmpty && containsB kw hay) = true ↔ (kw ≠ [] ∧ ContainsSub kw hay) := by
  simp [Bool.and_eq_true, List.isEmpty_iff, containsB_iff]

/-- Accumulating `+ 2` over the keywords that pass is twice the count of
passing keywords. -/
theorem foldl_score_count (p : List Char → Bool) :
    ∀ (l : List (List Char)) (init : Nat),
      l.foldl (fun b kw => if p kw then b + 2 else b) init = init + 2 * l.countP p
  | [], init => by simp
  | kw :: l, init => by
    by_cases h : p kw = true
    · simp [List.countP_cons, h, foldl_score_count p l]
      omega
    · simp [List.countP_cons, h, foldl_score_count p l]

theorem card_filter_toFinset {α : Type _} [DecidableEq α] (l : List α) (hl : l.Nodup)
    (q : α → Prop) [DecidablePred q] (p : α → Bool) (hpq : ∀ a, p a = true ↔ q a) :
    (l.toFinset.filter q).card = l.countP p := by
  have hset : l.toFinset.filter q = (l.filter p).toFinset := by
    ext a
    simp [List.mem_filter, hpq, List.mem_toFinset]
  rw [hset, List.toFinset_card_of_nodup (hl.filter p), List.countP_eq_length_filter]

theorem specKeywordSet_eq (req : RecommendRequest) :
    specKeywordSet req = (keywordsOf req).toFinset := by
  ext kw
  simp [specKeywordSet, keywordsOf, List.mem_dedup, or_assoc]

/-- C1: for every request, the base score assigned to a catalog entry is 2
points for each distinct keyword — the union of the whitespace-split
lowercased industry tokens with the verbatim goal and process strings — that
is a non-empty substring of the entry's haystack, the lowercase
concatenation of title, category and description joined by single spaces
(impact and tools excluded). -/
theorem base_score_two_per_matching_keyword (req : RecommendRequest) (sol : Solution) :
    baseScore req sol =
      2 * ((specKeywordSet req).filter
            (fun kw => kw ≠ [] ∧ ContainsSub kw (haystackD sol))).card := by
  have h1 : baseScore req sol =
      2 * (keywordsOf req).countP (fun kw => !kw.isEmpty && containsB kw (haystackD sol)) := by
    simpa [baseScore] using
      foldl_score_count (fun kw => !kw.isEmpty && containsB kw (haystackD sol))
        (keywordsOf req) 0
  rw [h1, specKeywordSet_eq,
    card_filter_toFinset (keywordsOf req) (List.nodup_dedup _) _ _
      (matchPred_iff (haystackD sol))]

/-- C2: `recommend` sorts the full catalog by score: the ranked sequence is a
permutation of the index-annotated catalog, scores are non-increasing along
it, and any two entries with equal scores appear in the same relative order
as their original catalog positions (stable sort). -/
theorem ranked_sorted_and_stable (req : RecommendRequest) :
    (ranked req).Perm CATALOG.enum ∧
    (ranked req).Pairwise (fun p q => score req q.2 ≤ score req p.2) ∧
    (ranked req).Pairwise (fun p q => score req p.2 = score req q.2 → p.1 < q.1) := by
  have hperm : (ranked req).Perm CATALOG.enum :=
    List.perm_insertionSort (rankRel req) CATALOG.enum
  have hsorted : (ranked req).Pairwise (rankRel req) :=
    List.sorted_insertionSort (rankRel req) CATALOG.enum
  have hnodup : ((ranked req).map Prod.fst).Nodup :=
    ((hperm.map Prod.fst).nodup_iff).mpr (List.nodup_enum_map_fst _)
  have hne : (ranked req).Pairwise (fun p q => p.1 ≠ q.1) := by
    simpa [List.Nodup, List.pairwise_map] using hnodup
  refine ⟨hperm, ?_, ?_⟩
  · refine hsorted.imp ?_
    rintro p q (h | ⟨e, -⟩)
    · exact h.le
    · exact e.ge
  · refine (hsorted.and hne).imp ?_
    rintro p q ⟨h | ⟨-, hle⟩, hne'⟩ heq
    · omega
    · exact lt_of_le_of_ne hle hne'

/-- C4: for every request, `recommend` returns exactly
`min 3 CATALOG.length` results, which for the fixed five-entry catalog is
exactly 3. -/
theorem recommend_returns_three (req : RecommendRequest) :
    (recommend req).length = min 3 CATALOG.length ∧ (recommend req).length = 3 := by
  have h5 : (ranked req).length = 5 := by
    rw [ranked, rankedOn,
      (List.perm_insertionSort (rankRel req) CATALOG.enum).length_eq]
    rfl
  have hc : CATALOG.length = 5 := rfl
  constructor
  · simp [recommend, h5, hc]
  · simp [recommend, h5]

/-- C3 counterexample: for the empty request the Low-complexity bonus does
fire (an absent `team_size` is in `{"solo", "small", None}`), so
`leadCaptureCrm` scores 1, not 0, and `recommend` does not return the first
three catalog entries in original order. -/
theorem empty_request_claim_false :
    score ⟨none, none, [], []⟩ leadCaptureCrm = 1 ∧
    recommend ⟨none, none, [], []⟩ ≠ CATALOG.take 3 := by
  decide

/-- C3 amended: for the empty request the two Low-complexity entries receive
the team-size bonus (absent `team_size` counts as matching) and score 1, all
other entries score 0, and `recommend` returns
`[leadCaptureCrm, marketingDrip, invoiceAutomation]` — the two Low entries
first, then the earliest of the 0-score entries. -/
theorem empty_request_low_bonus_fires :
    CATALOG.map (score ⟨none, none, [], []⟩) = [1, 0, 1, 0, 0] ∧
    recommend ⟨none, none, [], []⟩ = [leadCaptureCrm, marketingDrip, invoiceAutomation] := by
  decide

/-- C5 counterexample: for `goals = ["reduce_errors"]` the substring
`"error"` does not occur in `invoiceAutomation`'s haystack (the word
`"errori"` is only in its impact field, which the haystack excludes), so the
bonus does not fire and `invoiceAutomation` scores 0 — not strictly higher
than `leadCaptureCrm`, whose haystack also lacks `"error"` yet scores 1. -/
theorem reduce_errors_claim_false :
    containsB "error".data (haystackD invoiceAutomation) = false ∧
    score ⟨none, none, ["reduce_errors"], []⟩ invoiceAutomation = 0 ∧
    containsB "error".data (haystackD leadCaptureCrm) = false ∧
    score ⟨none, none, ["reduce_errors"], []⟩ leadCaptureCrm = 1 := by
  decide

/-- C5 amended: for `goals = ["reduce_errors"]` no haystack contains
`"error"` (the word `"errori"` lives in the impact field, which the haystack
excludes), so `invoiceAutomation` receives no reduce-errors bonus and scores
0; only the Low-complexity bonus separates the entries and `recommend`
returns the two Low entries followed by `invoiceAutomation`. -/
theorem reduce_errors_request_scores :
    CATALOG.map (score ⟨none, none, ["reduce_errors"], []⟩) = [1, 0, 1, 0, 0] ∧
    recommend ⟨none, none, ["reduce_errors"], []⟩ =
      [leadCaptureCrm, marketingDrip, invoiceAutomation] := by
  decide

/-- C6 counterexample: for `goals = ["save_time"]` and
`processes = ["lead_intake"]` the entry `leadCaptureCrm` gains no base
points (the verbatim keyword `"lead_intake"` is not a substring of its
haystack) and no tempo-bonus (`"tempo"` occurs only in its impact field,
excluded from the haystack); its score is 1, entirely the Low-complexity
bonus. -/
theorem save_time_lead_claim_false :
    baseScore ⟨none, none, ["save_time"], ["lead_intake"]⟩ leadCaptureCrm = 0 ∧
    containsB "tempo".data (haystackD leadCaptureCrm) = false ∧
    score ⟨none, none, ["save_time"], ["lead_intake"]⟩ leadCaptureCrm = 1 := by
  decide

/-- C6 amended: for `goals = ["save_time"]`, `processes = ["lead_intake"]`,
the keywords are the verbatim strings `"save_time"` and `"lead_intake"` —
neither (nor `"tempo"`) is a substring of `leadCaptureCrm`'s haystack, so it
gains no base points and no tempo-bonus; its score is exactly the
Low-complexity bonus of 1. -/
theorem save_time_lead_request_scores :
    containsB "lead_intake".data (haystackD leadCaptureCrm) = false ∧
    containsB "save_time".data (haystackD leadCaptureCrm) = false ∧
    keywordsOf ⟨none, none, ["save_time"], ["lead_intake"]⟩ =
      ["save_time".data, "lead_intake".data] ∧
    score ⟨none, none, ["save_time"], ["lead_intake"]⟩ leadCaptureCrm = 1 := by
  decide

/-- C7: `recommend` is a total pure function — its output is always drawn
from the catalog — and any request component that matches nothing
contributes zero: when no keyword is a non-empty substring of an entry's
haystack, no heuristic-bonus condition holds, and the Low-complexity
team-size condition fails, the entry's score is 0. -/
theorem recommend_never_fails (req : RecommendRequest) :
    (∀ sol ∈ recommend req, sol ∈ CATALOG) ∧
    (∀ sol : Solution,
      (∀ kw ∈ keywordsOf req, containsB kw (haystackD sol) = true → kw = []) →
      ("reduce_errors" ∈ req.goals → containsB "error".data (haystackD sol) = false) →
      ("save_time" ∈ req.goals → containsB "tempo".data (haystackD sol) = false) →
      (sol.complexity = "Low" →
        req.team_size ≠ some "solo" ∧ req.team_size ≠ some "small" ∧ req.team_size ≠ none) →
      score req sol = 0) := by
  constructor
  · have hmap : ((ranked req).map Prod.snd).Perm CATALOG := by
      have h := (List.perm_insertionSort (rankRel req) CATALOG.enum).map Prod.snd
      rwa [List.enum_map_snd] at h
    intro sol hsol
    exact hmap.subset ((List.take_sublist 3 _).subset hsol)
  · intro sol hkw herr htempo hlow
    have hbase : baseScore req sol = 0 := by
      have h := foldl_score_count
        (fun kw => !kw.isEmpty && containsB kw (haystackD sol)) (keywordsOf req) 0
      have hz :
          (keywordsOf req).countP
            (fun kw => !kw.isEmpty && containsB kw (haystackD sol)) = 0 := by
        rw [List.countP_eq_zero]
        intro kw hmem hp
        rw [Bool.and_eq_true] at hp
        have := hkw kw hmem hp.2
        subst this
        simp at hp
      simpa [baseScore, hz] using h
    have h₂ : ¬("reduce_errors" ∈ req.goals ∧
        containsB "error".data (haystackD sol) = true) := by
      rintro ⟨hg, hc⟩
      rw [herr hg] at hc
      exact absurd hc (by simp)
    have h₃ : ¬("save_time" ∈ req.goals ∧
        containsB "tempo".data (haystackD sol) = true) := by
      rintro ⟨hg, hc⟩
      rw [htempo hg] at hc
      exact absurd hc (by simp)
    have h₄ : ¬(sol.complexity = "Low" ∧
        (req.team_size = some "solo" ∨ req.team_size = some "small" ∨
          req.team_size = none)) := by
      rintro ⟨hc, hts⟩
      obtain ⟨ha, hb, hn⟩ := hlow hc
      rcases hts with h | h | h
      · exact ha h
      · exact hb h
      · exact hn h
    simp [score, hbase, h₂, h₃, h₄]

theorem recommend_never_fails_witness :
    score ⟨some "zzz", some "enterprise", ["nonsense_goal"], ["unknown_process"]⟩
      invoiceAutomation = 0 :=
  (recommend_never_fails
      ⟨some "zzz", some "enterprise", ["nonsense_goal"], ["unknown_process"]⟩).2
    invoiceAutomation (by decide) (by decide) (by decide) (by decide)

/-- C8: `recommend` is deterministic — two requests with identical field
values produce identical output sequences over the unchanged catalog. -/
theorem recommend_deterministic (r₁ r₂ : RecommendRequest)
    (h₁ : r₁.industry = r₂.industry) (h₂ : r₁.team_size = r₂.team_size)
    (h₃ : r₁.goals = r₂.goals) (h₄ : r₁.processes = r₂.processes) :
    recommend r₁ = recommend r₂ := by
  obtain ⟨i, t, g, p⟩ := r₁
  obtain ⟨i', t', g', p'⟩ := r₂
  simp_all

theorem recommend_deterministic_witness :
    recommend ⟨some "tech", some "solo", ["save_time"], ["invoicing"]⟩ =
      recommend ⟨some ("te" ++ "ch"), some "solo", ["save" ++ "_time"], ["invoicing"]⟩ :=
  recommend_deterministic _ _ (by decide) rfl (by decide) rfl

/-- C9: neither endpoint mutates the catalog — after any sequence of calls
the catalog state is still the fixed five-entry sequence, and listing it
after such a sequence returns exactly what listing it initially returns. -/
theorem catalog_never_mutated (calls : List ApiCall) :
    runCalls CATALOG calls = CATALOG ∧
    CATALOG.length = 5 ∧
    (list_solutions (runCalls CATALOG calls)).1 = (list_solutions CATALOG).1 := by
  have hstep : ∀ (st : List Solution) (c : ApiCall), (runCall st c).2 = st := by
    rintro st (_ | req) <;> rfl
  have h : ∀ (cs : List ApiCall) (st : List Solution), runCalls st cs = st := by
    intro cs
    induction cs with
    | nil => intro st; rfl
    | cons c cs ih =>
      intro st
      rw [runCalls, hstep]
      exact ih st
  exact ⟨h calls CATALOG, rfl, by rw [h calls CATALOG]⟩

/-- C10: no catalog entry's haystack contains the substring `"error"` or
`"tempo"` — those words occur only in impact fields, which the haystack
excludes — so for every request both heuristic-bonus branches contribute 0
and the score reduces to the base score plus the Low-complexity bonus. -/
theorem bonus_substrings_absent (req : RecommendRequest) (sol : Solution)
    (hsol : sol ∈ CATALOG) :
    ¬ ContainsSub "error".data (haystackD sol) ∧
    ¬ ContainsSub "tempo".data (haystackD sol) ∧
    score req sol = baseScore req sol
      + (if sol.complexity = "Low" ∧
            (req.team_size = some "solo" ∨ req.team_size = some "small" ∨
              req.team_size = none)
          then 1 else 0) := by
  have hb : containsB "error".data (haystackD sol) = false ∧
      containsB "tempo".data (haystackD sol) = false := by
    simp only [CATALOG, List.mem_cons, List.not_mem_nil, or_false] at hsol
    rcases hsol with rfl | rfl | rfl | rfl | rfl <;> exact ⟨by decide, by decide⟩
  refine ⟨?_, ?_, ?_⟩
  · intro h
    rw [← containsB_iff, hb.1] at h
    exact absurd h (by simp)
  · intro h
    rw [← containsB_iff, hb.2] at h
    exact absurd h (by simp)
  · simp [score, hb.1, hb.2]

theorem bonus_substrings_absent_witness :
    ¬ ContainsSub "error".data (haystackD marketingDrip) ∧
    ¬ ContainsSub "tempo".data (haystackD marketingDrip) ∧
    score reqNoBonus marketingDrip = baseScore reqNoBonus marketingDrip
      + (if marketingDrip.complexity = "Low" ∧
            (reqNoBonus.team_size = some "solo" ∨ reqNoBonus.team_size = some "small" ∨
              reqNoBonus.team_size = none)
          then 1 else 0) :=
  bonus_substrings_absent reqNoBonus marketingDrip (by decide)

